import Mathlib

/-!
Verification of the GrimoireLab core scheduler and archivist against its
natural-language specification.

The development shallowly embeds the Python modules
`grimoirelab/core/scheduler/scheduler.py`,
`grimoirelab/core/scheduler/models.py`,
`grimoirelab/core/scheduler/backends/{backend,git,gitlab}.py` and
`grimoirelab/core/scheduler/tasks/archivist.py`.

Django rows become Lean structures, the database becomes explicit lists of
rows threaded through every operation, the RQ broker becomes a list of
scheduled entries plus a fault-injection flag (the broker call either
succeeds or raises), wall-clock time is an explicit `now : Nat` parameter
(seconds), and Python exceptions become an error component of the result.
Each Django `save()` persists the whole row, which the model reflects by
replacing the row wholesale.
-/

/-- JSON-like values stored in `backend_args` fields and stream events. -/
inductive Value where
  | str : String → Value
  | int : Int → Value
  | bool : Bool → Value
  | none : Value
  | list : List Value → Value
  | dict : List (String × Value) → Value
deriving Repr, BEq, Inhabited

/-- A Python dict with string keys (insertion-ordered association list). -/
abbrev Dict := List (String × Value)

namespace Dict

/-- `d[k]` / `d.get(k)`: first binding of `k`, if any. -/
def get (d : Dict) (k : String) : Option Value :=
  (d.find? (fun p => p.fst = k)).map Prod.snd

/-- `d[k] = v`: replace the binding in place, else append (Python dict
assignment keeps insertion order). -/
def set (d : Dict) (k : String) (v : Value) : Dict :=
  match d with
  | [] => [(k, v)]
  | (k', v') :: rest =>
      if k' = k then (k, v) :: rest else (k', v') :: set rest k v

/-- `del d[k]`: remove the binding of `k` if present. -/
def erase (d : Dict) (k : String) : Dict :=
  d.filter (fun p => p.fst ≠ k)

/-- `k in d`. -/
def contains (d : Dict) (k : String) : Bool :=
  d.any (fun p => p.fst = k)

/-- `d.update(d2)`: assign every binding of `d2` into `d` in order. -/
def update (d d2 : Dict) : Dict :=
  d2.foldl (fun acc p => Dict.set acc p.fst p.snd) d

end Dict

/-! ## Task and Job rows (`scheduler/models.py`) -/

/-- `FetchTask.Status` (`models.py`).  The enum has no CANCELED member. -/
inductive TaskStatus where
  | new | enqueued | running | completed | failed | recovery
deriving Repr, DecidableEq, Inhabited

/-- `Job.Status` (`models.py`).  The enum has no CANCELED member. -/
inductive JobStatus where
  | enqueued | running | completed | failed
deriving Repr, DecidableEq, Inhabited

/-- A `FetchTask` row.  `backend_args` is carried as a plain value here; the
aliasing behaviour of `create_backend_args` (which deep-copies it) is studied
separately on an explicit heap below. -/
structure FetchTask where
  id : Nat
  backend : String
  category : String
  backend_args : Dict
  status : TaskStatus
  age : Nat
  executions : Nat
  num_failures : Nat
  queue : String
  scheduled_datetime : Option Nat
  interval : Nat
  max_retries : Nat
  last_execution : Option Nat
deriving Repr, BEq, Inhabited

/-- A `Job` row.  `backend_args` holds the full job-argument dict captured at
enqueue time; `result` and `logs` are filled in by the callbacks. -/
structure Job where
  job_id : Nat
  task_id : Nat
  backend : String
  category : String
  backend_args : Dict
  status : JobStatus
  queue : String
  scheduled_datetime : Option Nat
  result : Option Dict
  logs : Option Value
deriving Repr, BEq, Inhabited

/-! ## Perceval job results

`on_success_callback` receives a result object exposing `to_dict()` and
`summary`; `on_failure_callback` reads an optional result from the broker
meta.  Only the fields the scheduler touches are modelled. -/

/-- `perceval.backend.Summary`, restricted to the attributes read by the
scheduler backends. -/
structure Summary where
  fetched : Nat
  max_updated_on : String
  max_offset : Option Value
  last_offset : Option Value
  last_updated_on : Option Value
deriving Repr, BEq, Inhabited

/-- The result object produced by a job run: its dict form plus its summary.
For the failure path the summary may be absent (`result.summary` falsy). -/
structure RunResult where
  dict : Dict
  summary : Option Summary
deriving Repr, BEq, Inhabited

/-! ## Scheduler backends, value level (`backends/backend.py`, `git.py`,
`gitlab.py`)

These are the same functions as the heap-level ones further below, acting on
dict values; the deep copy performed by `Backend.create_backend_args` means
the task's dict and the job's dict are independent values, which is what
this value-level rendering expresses (and the heap-level rendering proves). -/

/-- Python truthiness of the values that `gitlab.py` meets in
`backend_args.get('api_token')`. -/
def Value.truthy : Value → Bool
  | .str s => s ≠ ""
  | .int n => n ≠ 0
  | .bool b => b
  | .none => false
  | .list l => !l.isEmpty
  | .dict d => !d.isEmpty

/-- Behaviour bundle of a scheduler backend class: the three static methods
dispatched through `get_scheduler_backend`. -/
structure SchedBackend where
  create_backend_args : FetchTask → Dict
  update_backend_args : Option Summary → Dict → Dict
  recovery_params : Option Summary → Dict → Dict

namespace PyBackend

/-- `Backend.create_backend_args` (`backend.py`): the job argument dict built
from the task, with a deep copy of the task's `backend_args`. -/
def create_backend_args (task : FetchTask) : Dict :=
  [("backend", Value.str task.backend),
   ("category", Value.str task.category),
   ("backend_args", Value.dict task.backend_args)]

/-- `Backend.update_backend_args` (`backend.py`). -/
def update_backend_args (summary : Option Summary) (backend_args : Dict) : Dict :=
  match summary with
  | some s =>
      if s.fetched > 0 then
        let d := Dict.set backend_args "from_date" (Value.str s.max_updated_on)
        match s.max_offset with
        | some off => if off.truthy then Dict.set d "offset" off else d
        | Option.none => d
      else backend_args
  | Option.none => backend_args

/-- `Backend.recovery_params` (`backend.py`): defaults to
`update_backend_args`. -/
def recovery_params (summary : Option Summary) (backend_args : Dict) : Dict :=
  update_backend_args summary backend_args

end PyBackend

/-- The base `Backend` class as a behaviour bundle. -/
def baseBackend : SchedBackend :=
  { create_backend_args := PyBackend.create_backend_args
    update_backend_args := PyBackend.update_backend_args
    recovery_params := PyBackend.recovery_params }

/-- `uri.lstrip('/')`. -/
def lstripSlash (s : String) : String :=
  ⟨s.data.dropWhile (fun c => c = '/')⟩

namespace PyGit

/-- `Git.create_backend_args` (`git.py`): base args, then make
`latest_items`/`gitpath` mandatory for the first execution.  `git_path` is
`os.path.join(expanduser(GIT_PATH), uri.lstrip('/')) + '-git'`.  Reading
`task.backend_args['uri']` raises `KeyError` when absent; the model defaults
the missing key to the empty string and the theorems assume the key is
present, which is the only case the scheduler creates. -/
def create_backend_args (git_path_base : String) (task : FetchTask) : Dict :=
  let job_args := PyBackend.create_backend_args task
  let uri := match Dict.get task.backend_args "uri" with
    | some (Value.str s) => s
    | _ => ""
  let git_path := git_path_base ++ "/" ++ lstripSlash uri ++ "-git"
  match Dict.get job_args "backend_args" with
  | some (Value.dict inner) =>
      let inner := Dict.set (Dict.set inner "latest_items" (Value.bool false)) "gitpath" (Value.str git_path)
      Dict.set job_args "backend_args" (Value.dict inner)
  | _ => job_args

/-- `Git.update_backend_args` (`git.py`). -/
def update_backend_args (_summary : Option Summary) (backend_args : Dict) : Dict :=
  Dict.erase (Dict.set backend_args "latest_items" (Value.bool true)) "recovery_commit"

/-- `Git.recovery_params` (`git.py`). -/
def recovery_params (summary : Option Summary) (backend_args : Dict) : Dict :=
  match summary with
  | some s =>
      match s.last_offset with
      | some off =>
          if off.truthy then
            Dict.set (Dict.set backend_args "recovery_commit" off) "latest_items" (Value.bool false)
          else Dict.set backend_args "latest_items" (Value.bool true)
      | Option.none => Dict.set backend_args "latest_items" (Value.bool true)
  | Option.none => Dict.set backend_args "latest_items" (Value.bool true)

end PyGit

/-- The `Git` backend as a behaviour bundle, closed over the configured
`GIT_PATH`. -/
def gitBackend (git_path_base : String) : SchedBackend :=
  { create_backend_args := PyGit.create_backend_args git_path_base
    update_backend_args := PyGit.update_backend_args
    recovery_params := PyGit.recovery_params }

namespace PyGitLab

/-- `GitLab.create_backend_args` (`gitlab.py`): base args, then wrap
`api_token` into a list and force `sleep_for_rate`. -/
def create_backend_args (task : FetchTask) : Dict :=
  let job_args := PyBackend.create_backend_args task
  match Dict.get job_args "backend_args" with
  | some (Value.dict inner) =>
      let tokens := match Dict.get inner "api_token" with
        | some v => v
        | Option.none => Value.none
      let tokens := match tokens with
        | Value.list l => Value.list l
        | v => Value.list [v]
      let inner := Dict.set (Dict.set inner "api_token" tokens) "sleep_for_rate" (Value.bool true)
      Dict.set job_args "backend_args" (Value.dict inner)
  | _ => job_args

/-- `GitLab.update_backend_args` (`gitlab.py`). -/
def update_backend_args (summary : Option Summary) (backend_args : Dict) : Dict :=
  let d := Dict.set backend_args "sleep_for_rate" (Value.bool true)
  match summary with
  | some s => Dict.set d "from_date" (s.last_updated_on.getD Value.none)
  | Option.none => Dict.set d "from_date" Value.none

/-- `GitLab.recovery_params` (`gitlab.py`). -/
def recovery_params (summary : Option Summary) (backend_args : Dict) : Dict :=
  match summary with
  | some s =>
      match s.last_updated_on with
      | some v => if v.truthy then Dict.set backend_args "from_date" v else backend_args
      | Option.none => backend_args
  | Option.none => backend_args

end PyGitLab

/-- The `GitLab` backend as a behaviour bundle. -/
def gitlabBackend : SchedBackend :=
  { create_backend_args := PyGitLab.create_backend_args
    update_backend_args := PyGitLab.update_backend_args
    recovery_params := PyGitLab.recovery_params }

/-! ## Settings and environment (`settings.py` values read by `scheduler.py`) -/

/-- The Django settings consulted by the scheduler module. -/
structure Settings where
  q_perceval_jobs : String
  q_events : String
  perceval_job_interval : Nat
  perceval_job_max_retries : Nat
  perceval_job_retry_interval : Nat
  git_path : String
  task_prefix : String
deriving Repr, Inhabited

/-- Process environment for the scheduler: settings, the perceval backend
registry probe used by `on_failure_callback` (`find_backends(...)[0]` — the
answer is `none` when the backend class is not found, otherwise the value of
`has_resuming()`), and the `GitHub` scheduler backend, whose module
`backends/github.py` is absent from the sources and therefore left
abstract. -/
structure Env where
  settings : Settings
  has_resuming : String → Option Bool
  githubBackend : SchedBackend

/-- `get_scheduler_backend` (`backends/utils.py`): dispatch on the lowercased
backend name, defaulting to the base `Backend` on a missing key. -/
def get_scheduler_backend (env : Env) (backend : String) : SchedBackend :=
  let b := backend.toLower
  if b = "git" then gitBackend env.settings.git_path
  else if b = "github" then env.githubBackend
  else if b = "gitlab" then gitlabBackend
  else baseBackend

/-! ## Scheduler state (`scheduler.py`)

The Django database is the pair of row lists; the RQ broker is the list of
scheduled entries.  Each operation takes a `broker_ok` flag injecting the
possible failure of the `enqueue_at` broker call, and returns the resulting
state paired with the Python outcome (a value or a raised exception).  Every
`save()` commits immediately (Django autocommit); there is no enclosing
transaction in the source, so writes performed before an exception
persist. -/

/-- An entry scheduled in the RQ broker by `enqueue_at`. -/
structure BrokerEntry where
  job_id : Nat
  queue : String
  scheduled_at : Nat
deriving Repr, BEq, DecidableEq, Inhabited

/-- The persistent state touched by `scheduler.py`. -/
structure SchedState where
  tasks : List FetchTask
  jobs : List Job
  broker : List BrokerEntry
  next_task_id : Nat
  next_job_id : Nat
deriving Repr, BEq, Inhabited

/-- Python exceptions surfaced by the scheduler module. -/
inductive SchedError where
  | notFound (element : Nat)
  | brokerError
  | attributeError
deriving Repr, DecidableEq, Inhabited

/-- `FetchTask.objects.get(id=...)`. -/
def findTask (st : SchedState) (id : Nat) : Option FetchTask :=
  st.tasks.find? (fun t => t.id = id)

/-- `Job.objects.get(job_id=...)`. -/
def findJob (st : SchedState) (id : Nat) : Option Job :=
  st.jobs.find? (fun j => j.job_id = id)

/-- `task.save()`: replace the row with the in-memory object, all fields. -/
def saveTask (st : SchedState) (t : FetchTask) : SchedState :=
  { st with tasks := st.tasks.map (fun t' => if t'.id = t.id then t else t') }

/-- `job.save()`. -/
def saveJob (st : SchedState) (j : Job) : SchedState :=
  { st with jobs := st.jobs.map (fun j' => if j'.job_id = j.job_id then j else j') }

/-- `task.delete()`: remove the task row; Job rows cascade
(`on_delete=CASCADE`).  Broker entries are not touched by a delete. -/
def deleteTask (st : SchedState) (id : Nat) : SchedState :=
  { st with tasks := st.tasks.filter (fun t => t.id ≠ id)
            jobs := st.jobs.filter (fun j => j.task_id ≠ id) }

/-- `_build_job_args` (`scheduler.py`). -/
def _build_job_args (env : Env) (task : FetchTask) : Dict :=
  [("qitems", Value.str env.settings.q_events),
   ("task_id", Value.str (env.settings.task_prefix ++ toString task.id))]

/-- `enqueue_task` (`scheduler.py`).  Creates the Job row, performs the
broker `enqueue_at` call, and only after broker success bumps `task.age`,
records `task.scheduled_datetime` and saves the task.  On broker failure the
exception propagates with the Job row already persisted (status ENQUEUED)
and the task row untouched.  The returned pair carries the created job and
the in-memory task object as mutated by the call. -/
def enqueue_task (env : Env) (st : SchedState) (task : FetchTask) (now : Nat)
    (scheduled_datetime : Option Nat) (job_args : Option Dict) (broker_ok : Bool) :
    SchedState × Except SchedError (Job × FetchTask) :=
  let scheduled := scheduled_datetime.getD now
  let args := match job_args with
    | some a =>
        -- `if not job_args:` treats an empty dict as absent
        if a.isEmpty then
          Dict.update (_build_job_args env task)
            ((get_scheduler_backend env task.backend).create_backend_args task)
        else a
    | Option.none =>
        Dict.update (_build_job_args env task)
          ((get_scheduler_backend env task.backend).create_backend_args task)
  let job : Job :=
    { job_id := st.next_job_id, task_id := task.id, backend := task.backend,
      category := task.category, backend_args := args,
      status := JobStatus.enqueued, queue := task.queue,
      scheduled_datetime := some scheduled,
      result := Option.none, logs := Option.none }
  let st1 : SchedState :=
    { st with jobs := st.jobs ++ [job], next_job_id := st.next_job_id + 1 }
  if broker_ok then
    let st2 : SchedState :=
      { st1 with broker := st1.broker ++
          [{ job_id := job.job_id, queue := task.queue, scheduled_at := scheduled }] }
    let task' : FetchTask :=
      { task with age := task.age + 1, scheduled_datetime := some scheduled }
    (saveTask st2 task', Except.ok (job, task'))
  else
    (st1, Except.error SchedError.brokerError)

/-- `schedule_task` (`scheduler.py`): create the task row with status
ENQUEUED, then `enqueue_task`; a broker error propagates to the caller. -/
def schedule_task (env : Env) (st : SchedState) (backend category : String)
    (backend_args : Dict) (queue_id : String) (interval max_retries : Nat)
    (now : Nat) (broker_ok : Bool) :
    SchedState × Except SchedError FetchTask :=
  let task : FetchTask :=
    { id := st.next_task_id, backend := backend, category := category,
      backend_args := backend_args, status := TaskStatus.enqueued,
      age := 0, executions := 0, num_failures := 0, queue := queue_id,
      scheduled_datetime := Option.none, interval := interval,
      max_retries := max_retries, last_execution := Option.none }
  let st1 : SchedState :=
    { st with tasks := st.tasks ++ [task], next_task_id := st.next_task_id + 1 }
  match enqueue_task env st1 task now Option.none Option.none broker_ok with
  | (st2, Except.ok (_, task')) => (st2, Except.ok task')
  | (st2, Except.error e) => (st2, Except.error e)

/-- `remove_task` (`scheduler.py`).  Missing task: `NotFoundError`.  The
query for RUNNING jobs yields a QuerySet; when it is non-empty the code
reads `job.job_id` on the QuerySet itself, which raises `AttributeError`
before `cancel_job` or `task.delete()` run.  When no job is RUNNING the task
row is deleted (jobs cascade) and no broker entry is cancelled. -/
def remove_task (st : SchedState) (task_id : Nat) :
    SchedState × Except SchedError Unit :=
  match findTask st task_id with
  | Option.none => (st, Except.error (SchedError.notFound task_id))
  | some task =>
      let running := st.jobs.filter
        (fun j => decide (j.task_id = task.id ∧ j.status = JobStatus.running))
      if running.isEmpty then
        (deleteTask st task.id, Except.ok ())
      else
        (st, Except.error SchedError.attributeError)

/-- `reschedule_task` (`scheduler.py`): only a FAILED task is acted on — its
counters (`age`, `executions`, `num_failures`) are reset to zero, its status
set to ENQUEUED, and a fresh job enqueued at the current time; any other
status returns `False` without changes. -/
def reschedule_task (env : Env) (st : SchedState) (task_id : Nat) (now : Nat)
    (broker_ok : Bool) : SchedState × Except SchedError Bool :=
  match findTask st task_id with
  | Option.none => (st, Except.error (SchedError.notFound task_id))
  | some task =>
      if task.status = TaskStatus.failed then
        let task' : FetchTask :=
          { task with
            age := 0
            executions := 0
            num_failures := 0
            status := TaskStatus.enqueued }
        let st1 := saveTask st task'
        match enqueue_task env st1 task' now Option.none Option.none broker_ok with
        | (st2, Except.ok _) => (st2, Except.ok true)
        | (st2, Except.error e) => (st2, Except.error e)
      else
        (st, Except.ok false)

/-- `on_success_callback` (`scheduler.py`).  The task row is saved with
status COMPLETED, `executions + 1` and `num_failures` reset to 0; the job
row is saved with status COMPLETED, the result dict and the broker meta
logs; then, for a recurring task (`interval > 0`), the task is re-enqueued
at `now + interval` with arguments recomputed by `update_backend_args`.
(`task.failed = False` in the source sets an attribute that is not a column
and is never persisted.) -/
def on_success_callback (env : Env) (st : SchedState) (rq_job_id : Nat)
    (now : Nat) (result : RunResult) (meta_log : Value) (broker_ok : Bool) :
    SchedState × Except SchedError Unit :=
  match findJob st rq_job_id with
  | Option.none => (st, Except.ok ())  -- "Job not found. Not rescheduling."
  | some dbjob =>
    match findTask st dbjob.task_id with
    | Option.none => (st, Except.error (SchedError.notFound dbjob.task_id))
    | some task =>
      let task1 : FetchTask :=
        { task with
          status := TaskStatus.completed
          last_execution := some now
          executions := task.executions + 1
          num_failures := 0 }
      let st1 := saveTask st task1
      let dbjob1 : Job :=
        { dbjob with
          status := JobStatus.completed
          result := some result.dict
          logs := some meta_log }
      let st2 := saveJob st1 dbjob1
      if task1.interval > 0 then
        let task2 : FetchTask := { task1 with status := TaskStatus.enqueued }
        let backend := get_scheduler_backend env task2.backend
        let job_args := backend.update_backend_args result.summary dbjob1.backend_args
        let scheduled := now + task2.interval
        match enqueue_task env st2 task2 now (some scheduled) (some job_args) broker_ok with
        | (st3, Except.ok _) => (st3, Except.ok ())
        | (st3, Except.error e) => (st3, Except.error e)
      else
        (st2, Except.ok ())

/-- `on_failure_callback` (`scheduler.py`).  The task row is saved with
status FAILED and `num_failures + 1`; the job row is saved with status
FAILED, the optional broker-meta result and logs.  Retry policy: the
perceval backend must exist and resume (`has_resuming`), and the comparison
is `task.num_failures >= settings.PERCEVAL_JOB_MAX_RETRIES` — the global
setting, not the task's own `max_retries` column.  On retry the task status
becomes RECOVERY and the replacement job is scheduled at
`now + settings.PERCEVAL_JOB_RETRY_INTERVAL`, with recovery arguments only
when the broker meta carried a result with a summary. -/
def on_failure_callback (env : Env) (st : SchedState) (rq_job_id : Nat)
    (now : Nat) (meta_result : Option RunResult) (meta_log : Option Value)
    (broker_ok : Bool) : SchedState × Except SchedError Unit :=
  match findJob st rq_job_id with
  | Option.none => (st, Except.ok ())  -- "Job not found. Not rescheduling."
  | some jobdb =>
    match findTask st jobdb.task_id with
    | Option.none => (st, Except.error (SchedError.notFound jobdb.task_id))
    | some task =>
      let task1 : FetchTask :=
        { task with
          status := TaskStatus.failed
          last_execution := some now
          num_failures := task.num_failures + 1 }
      let st1 := saveTask st task1
      let jobdb1 : Job :=
        { jobdb with
          status := JobStatus.failed
          result := meta_result.map RunResult.dict
          logs := meta_log }
      let st2 := saveJob st1 jobdb1
      let task_max_retries := env.settings.perceval_job_max_retries
      match env.has_resuming task1.backend with
      | Option.none => (st2, Except.ok ())   -- backend class not found
      | some false => (st2, Except.ok ())    -- backend cannot resume
      | some true =>
        if task1.num_failures ≥ task_max_retries then
          (st2, Except.ok ())                -- max retries reached
        else
          let task2 : FetchTask := { task1 with status := TaskStatus.recovery }
          let job_args : Option Dict := match meta_result with
            | some r =>
                match r.summary with
                | some s =>
                    some ((get_scheduler_backend env task2.backend).recovery_params
                            (some s) jobdb1.backend_args)
                | Option.none => Option.none
            | Option.none => Option.none
          let scheduled := now + env.settings.perceval_job_retry_interval
          match enqueue_task env st2 task2 now (some scheduled) job_args broker_ok with
          | (st3, Except.ok _) => (st3, Except.ok ())
          | (st3, Except.error e) => (st3, Except.error e)

/-! ## Redis stream and consumer groups (`tasks/archivist.py`)

The Redis stream becomes a list of entries per stream key; a consumer group
records how many entries have been delivered to the group (the `>` cursor)
and the per-group pending set.  `idle_ms` is the time a pending entry has
been waiting since its last delivery, fixed at the start of a job run. -/

/-- One entry of the events stream: its id and the JSON-decoded `data`
field. -/
structure StreamEntry where
  id : Nat
  data : Dict
deriving Repr, BEq, Inhabited

/-- A pending (delivered, unacknowledged) entry of a consumer group. -/
structure PendingEntry where
  message_id : Nat
  consumer : String
  idle_ms : Nat
deriving Repr, BEq, Inhabited

/-- A consumer group: `delivered` is the number of stream entries already
handed to the group (`xreadgroup` with `>` continues from there). -/
structure ConsumerGroup where
  stream : String
  name : String
  delivered : Nat
  pending : List PendingEntry
deriving Repr, BEq, Inhabited

/-- The Redis server state seen by the archivist. -/
structure RedisState where
  streams : List (String × List StreamEntry)
  groups : List ConsumerGroup
deriving Repr, BEq, Inhabited

/-- Redis errors distinguished by `_create_consumer_group`: the BUSYGROUP
response versus any other response error. -/
inductive RedisError where
  | busygroup
  | other
deriving Repr, DecidableEq, Inhabited

/-- Entries of a stream key (a missing key reads as the empty stream). -/
def findStream (st : RedisState) (stream : String) : List StreamEntry :=
  ((st.streams.find? (fun p => p.fst = stream)).map Prod.snd).getD []

/-- The group registered for `(stream, name)`, if any. -/
def findGroup (st : RedisState) (stream name : String) : Option ConsumerGroup :=
  st.groups.find? (fun g => g.stream = stream ∧ g.name = name)

/-- Replace the group with the same `(stream, name)` key. -/
def saveGroup (st : RedisState) (g : ConsumerGroup) : RedisState :=
  { st with groups := st.groups.map (fun g' => if g'.stream = g.stream ∧ g'.name = g.name then g else g') }

/-- `connection.xgroup_create(stream, group, id='0', mkstream=True)`:
BUSYGROUP when the group exists; otherwise create the stream if absent and
register the group at position 0 with no pending entries.  `fault` injects
any other response error (connection failure and the like). -/
def xgroup_create (st : RedisState) (stream name : String) (fault : Bool) :
    RedisState × Except RedisError Unit :=
  if fault then (st, Except.error RedisError.other)
  else
    match findGroup st stream name with
    | some _ => (st, Except.error RedisError.busygroup)
    | Option.none =>
        let st1 : RedisState :=
          if (st.streams.find? (fun p => p.fst = stream)).isSome then st
          else { st with streams := st.streams ++ [(stream, [])] }
        let g : ConsumerGroup :=
          { stream := stream, name := name, delivered := 0, pending := [] }
        ({ st1 with groups := st1.groups ++ [g] }, Except.ok ())

/-- `_create_consumer_group` (`archivist.py`): create the group, treating the
BUSYGROUP error as success and re-raising anything else. -/
def _create_consumer_group (st : RedisState) (stream name : String)
    (fault : Bool) : RedisState × Except RedisError Unit :=
  match xgroup_create st stream name fault with
  | (st', Except.ok ()) => (st', Except.ok ())
  | (st', Except.error RedisError.busygroup) => (st', Except.ok ())
  | (st', Except.error e) => (st', Except.error e)

/-- The idle threshold of `_recover_stream_entries`: `5 * 60 * 1000` ms. -/
def recoverIdleMs : Nat := 5 * 60 * 1000


/-- The `while True` loop of `_recover_stream_entries`: each `xautoclaim`
call claims up to `count=10` entries pending longer than the idle threshold;
each claimed entry is yielded and then acknowledged (removed from pending);
the loop ends when the returned cursor is `0-0`, i.e. when at most 10 idle
entries remained to scan.  Acknowledging the claimed batch leaves exactly
the other pending entries for the next scan. -/
def _recoverLoop (entries : List StreamEntry) (pending : List PendingEntry) :
    List PendingEntry × List Dict :=
  let idle := pending.filter (fun p => decide (p.idle_ms ≥ recoverIdleMs))
  let claimed := idle.take 10
  let events := claimed.filterMap
    (fun p => (entries.find? (fun e => e.id = p.message_id)).map StreamEntry.data)
  let pending' := pending.filter
    (fun p => !(claimed.any (fun c => c.message_id == p.message_id)))
  if h : idle.length ≤ 10 then (pending', events)
  else
    let next := _recoverLoop entries pending'
    (next.fst, events ++ next.snd)
termination_by pending.length
decreasing_by
  have hlen : claimed.length = 10 := by
    simp only [claimed, List.length_take]
    omega
  have hne : claimed ≠ [] := by
    intro h0
    rw [h0] at hlen
    simp at hlen
  obtain ⟨c, cs, hc⟩ := List.exists_cons_of_ne_nil hne
  have hc_claimed : c ∈ claimed := by
    rw [hc]
    exact List.mem_cons_self c cs
  have hc_idle : c ∈ idle := List.mem_of_mem_take hc_claimed
  have hc_pend : c ∈ pending := List.mem_of_mem_filter hc_idle
  have hpa : (fun p => !(claimed.any (fun c' => c'.message_id == p.message_id))) c = false := by
    simp only [Bool.not_eq_false']
    exact List.any_eq_true.mpr ⟨c, hc_claimed, by simp⟩
  have hgen : ∀ (l : List PendingEntry), c ∈ l →
      (l.filter (fun p => !(claimed.any (fun c' => c'.message_id == p.message_id)))).length
        < l.length := by
    intro l hl
    induction l with
    | nil => cases hl
    | cons x xs ih =>
        by_cases hx : (fun p => !(claimed.any (fun c' => c'.message_id == p.message_id))) x = true
        · have hax : c ∈ xs := by
            cases List.mem_cons.mp hl with
            | inl he => rw [he] at hpa; rw [hpa] at hx; cases hx
            | inr hm => exact hm
          simp only [List.filter, hx]
          exact Nat.succ_lt_succ (ih hax)
        · simp only [Bool.not_eq_true] at hx
          simp only [List.filter, hx]
          exact Nat.lt_succ_of_le (List.length_filter_le _ xs)
  exact hgen pending hc_pend

/-- `_recover_stream_entries` (`archivist.py`): transfer ownership of
pending entries idle beyond the threshold and drain them, acknowledging each
after it is yielded.  NOGROUP (missing group) cannot occur because the
caller just ensured the group exists. -/
def _recover_stream_entries (st : RedisState) (_consumer_name stream name : String) :
    RedisState × List Dict :=
  match findGroup st stream name with
  | Option.none => (st, [])
  | some g =>
      let r := _recoverLoop (findStream st stream) g.pending
      (saveGroup st { g with pending := r.fst }, r.snd)

/-- The main `while True` loop of `events_consumer`: `xreadgroup` with `>`
delivers up to `count=10` entries never delivered to the group before (they
become pending for the consumer); each one is yielded and then acknowledged;
the loop ends on an empty read or once `total >= limit` after a batch. -/
def _consumeLoop (entries : List StreamEntry) (consumer_name : String)
    (delivered : Nat) (pending : List PendingEntry) (limit total : Nat) :
    Nat × List PendingEntry × List Dict :=
  let batch := (entries.drop delivered).take 10
  if h : batch.isEmpty then (delivered, pending, [])
  else
    -- reading adds the batch to the pending set; the immediate xack of each
    -- yielded message removes it again
    let delivered' := delivered + batch.length
    let pending' := pending ++ batch.map
      (fun e => { message_id := e.id, consumer := consumer_name, idle_ms := 0 })
    let pending'' := pending'.filter
      (fun p => !(batch.any (fun e => e.id == p.message_id)))
    let events := batch.map StreamEntry.data
    let total' := total + batch.length
    if total' ≥ limit then (delivered', pending'', events)
    else
      let next := _consumeLoop entries consumer_name delivered' pending'' limit total'
      (next.fst, next.snd.fst, events ++ next.snd.snd)
termination_by entries.length - delivered
decreasing_by
  have hb : ((entries.drop delivered).take 10).length ≥ 1 := by
    cases hbe : batch with
    | nil => rw [hbe] at h; simp at h
    | cons a l =>
        have : batch.length ≥ 1 := by rw [hbe]; simp
        exact this
  have hble : ((entries.drop delivered).take 10).length ≤ (entries.drop delivered).length :=
    List.length_take_le' 10 (entries.drop delivered)
  have hdl : (entries.drop delivered).length = entries.length - delivered :=
    List.length_drop delivered entries
  omega

/-- `events_consumer` (`archivist.py`), run to exhaustion: ensure the group
exists, drain the recovery path, then read new entries until the stream is
empty or the limit is reached.  It returns the events yielded, in order.
Every yielded event is acknowledged right after the consumer resumes, so the
pending set the run leaves behind is independent of what the caller does
with the events. -/
def events_consumer (st : RedisState) (consumer_name stream name : String)
    (limit : Nat) (fault : Bool) :
    RedisState × Except RedisError (List Dict) :=
  match _create_consumer_group st stream name fault with
  | (st1, Except.error e) => (st1, Except.error e)
  | (st1, Except.ok ()) =>
      let r1 := _recover_stream_entries st1 consumer_name stream name
      let st2 := r1.fst
      match findGroup st2 stream name with
      | Option.none => (st2, Except.ok r1.snd)  -- unreachable: the group was just created
      | some g =>
          let r2 := _consumeLoop (findStream st2 stream) consumer_name
                      g.delivered g.pending limit 0
          (saveGroup st2 { g with delivered := r2.fst, pending := r2.snd.fst },
           Except.ok (r1.snd ++ r2.snd.snd))

/-! ## OpenSearch storage (`archivist.py`) -/

/-- The outcome of one OpenSearch bulk chunk (`OpenSearchStorage._bulk`):
the per-item `errors` of the bulk response are an oracle `bulk_ok`; the call
returns the number of items of the chunk that were not reported failed.
Failed items are only logged — the method neither raises nor reports which
events failed to its caller. -/
def _bulk (bulk_ok : Dict → Bool) (chunk : List Dict) : Nat :=
  (chunk.filter bulk_ok).length

/-- The accumulation loop of `OpenSearchStorage.store`: events are added to
the current bulk body; every `max_items_bulk = 100` events a `_bulk` call is
issued, and a final partial chunk is flushed at the end.  The return value
is the total number of stored items; rejected items are dropped silently. -/
def storeLoop (bulk_ok : Dict → Bool) (events : List Dict)
    (current : List Dict) (new_items : Nat) : Nat :=
  match events with
  | [] => if current.length > 0 then new_items + _bulk bulk_ok current.reverse else new_items
  | e :: rest =>
      let current' := e :: current
      if current'.length ≥ 100 then
        storeLoop bulk_ok rest [] (new_items + _bulk bulk_ok current'.reverse)
      else
        storeLoop bulk_ok rest current' new_items

/-- `OpenSearchStorage.store` (`archivist.py`). -/
def OpenSearchStorage_store (bulk_ok : Dict → Bool) (events : List Dict) : Nat :=
  storeLoop bulk_ok events [] 0

/-- `archivist_job` (`archivist.py`), restricted to its stream/sink effects:
build the consumer generator and hand it to `storage.store`.  The generator
and the store run interleaved in the source, but `OpenSearchStorage.store`
always consumes the generator to exhaustion and performs no stream
operation, so the run decomposes into the consumer pass followed by the
bulk accounting. -/
def archivist_job (st : RedisState) (consumer_name stream name : String)
    (limit : Nat) (bulk_ok : Dict → Bool) (fault : Bool) :
    RedisState × Except RedisError Nat :=
  match events_consumer st consumer_name stream name limit fault with
  | (st', Except.ok events) => (st', Except.ok (OpenSearchStorage_store bulk_ok events))
  | (st', Except.error e) => (st', Except.error e)

/-! ## Heap-level backend arguments (`backends/backend.py`, `git.py`,
`gitlab.py`)

The value-level functions above cannot express the aliasing question behind
`copy.deepcopy`: in Python, `job_args['backend_args']` is a reference, and
without the deep copy the later in-place mutations
(`job_args['backend_args']['gitpath'] = ...`) would write through to
`task.backend_args`.  Here dicts live on an explicit heap and the task's
`backend_args` is an address; `create_backend_args` allocates a fresh cell
holding a copy of the task's dict, and the subclass methods mutate through
the job's address only. -/

/-- A heap of dict cells addressed by `Nat`. -/
structure Heap where
  cells : List (Nat × Dict)
  next : Nat
deriving Repr, Inhabited

namespace Heap

/-- Dereference an address. -/
def read (h : Heap) (r : Nat) : Option Dict :=
  (h.cells.find? (fun c => c.fst = r)).map Prod.snd

/-- In-place mutation of the dict at an address. -/
def write (h : Heap) (r : Nat) (d : Dict) : Heap :=
  { h with cells := h.cells.map (fun c => if c.fst = r then (r, d) else c) }

/-- Allocate a fresh cell (the effect of `copy.deepcopy` is to allocate and
fill a new cell rather than return the old address). -/
def alloc (h : Heap) (d : Dict) : Heap × Nat :=
  ({ cells := h.cells ++ [(h.next, d)], next := h.next + 1 }, h.next)

/-- Allocated addresses lie below `next`, so a fresh cell is really fresh. -/
def WF (h : Heap) : Prop :=
  ∀ c ∈ h.cells, c.fst < h.next

end Heap

/-- The job-argument structure built by `create_backend_args`: the two
scalar fields plus the address of the nested `backend_args` dict. -/
structure JobArgsH where
  backend : String
  category : String
  backend_args : Nat
deriving Repr, Inhabited

/-- Heap-level `Backend.create_backend_args`: read the task's dict and place
a deep copy of it in a fresh cell; the job arguments point at the copy.
`none` only if the task's address is dangling. -/
def create_backend_args_H (h : Heap) (task_backend task_category : String)
    (task_args : Nat) : Option (Heap × JobArgsH) :=
  match h.read task_args with
  | Option.none => Option.none
  | some d =>
      let a := h.alloc d
      some (a.fst, { backend := task_backend, category := task_category,
                     backend_args := a.snd })

/-- Heap-level `Git.create_backend_args`: the base copy, then two writes
through the job's address (`latest_items`, `gitpath`); the `uri` is read
from the task's dict (a missing or non-string `uri` is Python's `KeyError`,
returned as `none`). -/
def git_create_backend_args_H (git_path_base : String) (h : Heap)
    (task_backend task_category : String) (task_args : Nat) :
    Option (Heap × JobArgsH) :=
  match create_backend_args_H h task_backend task_category task_args with
  | Option.none => Option.none
  | some (h1, ja) =>
      match h1.read task_args with
      | Option.none => Option.none
      | some taskd =>
          match Dict.get taskd "uri" with
          | some (Value.str uri) =>
              let git_path := git_path_base ++ "/" ++ lstripSlash uri ++ "-git"
              match h1.read ja.backend_args with
              | Option.none => Option.none
              | some inner =>
                  let inner1 := Dict.set inner "latest_items" (Value.bool false)
                  let h2 := h1.write ja.backend_args inner1
                  let inner2 := Dict.set inner1 "gitpath" (Value.str git_path)
                  let h3 := h2.write ja.backend_args inner2
                  some (h3, ja)
          | _ => Option.none
  
/-- Heap-level `GitLab.create_backend_args`: the base copy, then two writes
through the job's address (`api_token` wrapped into a list, and
`sleep_for_rate`). -/
def gitlab_create_backend_args_H (h : Heap)
    (task_backend task_category : String) (task_args : Nat) :
    Option (Heap × JobArgsH) :=
  match create_backend_args_H h task_backend task_category task_args with
  | Option.none => Option.none
  | some (h1, ja) =>
      match h1.read ja.backend_args with
      | Option.none => Option.none
      | some inner =>
          let tokens := (Dict.get inner "api_token").getD Value.none
          let tokens := match tokens with
            | Value.list l => Value.list l
            | v => Value.list [v]
          let inner1 := Dict.set inner "api_token" tokens
          let h2 := h1.write ja.backend_args inner1
          let inner2 := Dict.set inner1 "sleep_for_rate" (Value.bool true)
          let h3 := h2.write ja.backend_args inner2
          some (h3, ja)

/-! ## Observations and concrete fixtures -/

/-- Status of the task row with the given id. -/
def taskStatus? (st : SchedState) (id : Nat) : Option TaskStatus :=
  (findTask st id).map FetchTask.status

/-- Failure counter of the task row with the given id. -/
def taskFailures? (st : SchedState) (id : Nat) : Option Nat :=
  (findTask st id).map FetchTask.num_failures

/-- Execution counter of the task row with the given id. -/
def taskExecutions? (st : SchedState) (id : Nat) : Option Nat :=
  (findTask st id).map FetchTask.executions

/-- Status of the job row with the given id. -/
def jobStatus? (st : SchedState) (id : Nat) : Option JobStatus :=
  (findJob st id).map Job.status

/-- Number of jobs of the task that are FAILED (`|{J : J.task == T ∧
J.status == FAILED}|`). -/
def failed_job_count (st : SchedState) (task_id : Nat) : Nat :=
  (st.jobs.filter (fun j => decide (j.task_id = task_id ∧ j.status = JobStatus.failed))).length

/-- Whether the broker holds an entry for a job of the given task. -/
def brokerHasJobOf (st : SchedState) (task_id : Nat) : Bool :=
  st.broker.any (fun b => st.jobs.any (fun j => j.job_id == b.job_id && j.task_id == task_id))

/-- Concrete settings: `PERCEVAL_JOB_MAX_RETRIES = 3`,
`PERCEVAL_JOB_RETRY_INTERVAL = 300`. -/
def settings0 : Settings :=
  { q_perceval_jobs := "perceval_jobs", q_events := "events",
    perceval_job_interval := 86400, perceval_job_max_retries := 3,
    perceval_job_retry_interval := 300, git_path := "/tmp/git",
    task_prefix := "grimoire:task:" }

/-- Concrete environment: only the `git` perceval backend exists and it can
resume. -/
def env0 : Env :=
  { settings := settings0,
    has_resuming := fun b => if b = "git" then some true else Option.none,
    githubBackend := baseBackend }

/-- A task row used by the concrete scenarios (recurring `git` task). -/
def task0 : FetchTask :=
  { id := 0, backend := "git", category := "commit",
    backend_args := [("uri", Value.str "http://example.com/repo.git")],
    status := TaskStatus.enqueued, age := 1, executions := 0, num_failures := 0,
    queue := "perceval_jobs", scheduled_datetime := some 500, interval := 360,
    max_retries := 5, last_execution := Option.none }

/-- A job row of `task0`, currently enqueued. -/
def job11 : Job :=
  { job_id := 11, task_id := 0, backend := "git", category := "commit",
    backend_args := [("qitems", Value.str "events")],
    status := JobStatus.enqueued, queue := "perceval_jobs",
    scheduled_datetime := some 500, result := Option.none, logs := Option.none }

/-- A previously failed job row of `task0`. -/
def job10 : Job :=
  { job11 with job_id := 10, status := JobStatus.failed }

/-- A successful run result with an empty summary payload. -/
def result0 : RunResult :=
  { dict := [("fetched", Value.int 3)],
    summary := some { fetched := 3, max_updated_on := "2024-01-01",
                      max_offset := Option.none, last_offset := Option.none,
                      last_updated_on := Option.none } }

/-- Result field of the job row with the given id. -/
def jobResult? (st : SchedState) (id : Nat) : Option (Option Dict) :=
  (findJob st id).map Job.result

/-- Logs field of the job row with the given id. -/
def jobLogs? (st : SchedState) (id : Nat) : Option (Option Value) :=
  (findJob st id).map Job.logs

/-- A store holding `task0` and its enqueued job `job11`. -/
def st0 : SchedState :=
  { tasks := [task0], jobs := [job11], broker := [], next_task_id := 1,
    next_job_id := 12 }

/-- `task0` two failures in, with its current job `job11`: the next failure
is the third, reaching the global `PERCEVAL_JOB_MAX_RETRIES = 3` while still
below the task's own `max_retries = 5`. -/
def c1_state : SchedState :=
  { tasks := [{ task0 with num_failures := 2 }],
    jobs := [job11], broker := [], next_task_id := 1, next_job_id := 12 }

/-- A one-shot variant of `task0` with one failed job on record and the
failure counter at 1, about to run `job11` successfully. -/
def c3_state : SchedState :=
  { tasks := [{ task0 with interval := 0, num_failures := 1 }],
    jobs := [job10, job11], broker := [], next_task_id := 1, next_job_id := 12 }

/-- An empty store. -/
def c46_state : SchedState :=
  { tasks := [], jobs := [], broker := [], next_task_id := 0, next_job_id := 11 }

/-- `task0` finished (COMPLETED) after two runs, with its job history. -/
def c5_state : SchedState :=
  { tasks := [{ task0 with status := TaskStatus.completed, executions := 2 }],
    jobs := [job10, job11], broker := [], next_task_id := 1, next_job_id := 12 }

/-- A stream with one entry and an existing consumer group at position 0. -/
def redis1 : RedisState :=
  { streams := [("events", [{ id := 1, data := [("id", Value.str "e1")] }])],
    groups := [{ stream := "events", name := "g", delivered := 0, pending := [] }] }

/-- An empty Redis server. -/
def redis0 : RedisState := { streams := [], groups := [] }

/-- `task0` in the FAILED state after two failures. -/
def task0f : FetchTask :=
  { task0 with status := TaskStatus.failed, num_failures := 2, executions := 2 }

/-- A store holding the failed `task0f` and its job history. -/
def st5f : SchedState :=
  { tasks := [task0f], jobs := [job10, job11], broker := [], next_task_id := 1,
    next_job_id := 12 }

/-- A heap with one task-args cell at address 0. -/
def heap0 : Heap :=
  { cells := [(0, [("uri", Value.str "/r"), ("api_token", Value.str "tkn")])], next := 1 }

/-! ## State-access lemmas -/

/-- `find?` over an append scans the left part first. -/
theorem find?_append_or {α : Type} (p : α → Bool) (l1 l2 : List α) :
    (l1 ++ l2).find? p = Option.or (l1.find? p) (l2.find? p) := by
  induction l1 with
  | nil => simp [Option.or]
  | cons x xs ih =>
      by_cases hx : p x
      · simp [List.find?, hx, Option.or]
      · simp only [List.cons_append, List.find?]
        rw [Bool.not_eq_true] at hx
        rw [hx]
        exact ih

/-- Replacing the rows whose key matches `k` by `t` (with `t.id = k`) moves a
lookup to `t` exactly when the id matches and a row was found. -/
theorem find?_map_replace_id (l : List FetchTask) (t : FetchTask) (k id : Nat)
    (hk : t.id = k) :
    (l.map (fun x => if x.id = k then t else x)).find? (fun x => x.id = id) =
      if id = k then (l.find? (fun x => x.id = id)).map (fun _ => t)
      else l.find? (fun x => x.id = id) := by
  subst hk
  induction l with
  | nil => simp
  | cons x xs ih =>
      by_cases hx : x.id = t.id
      · by_cases hid : id = t.id
        · simp [List.find?, hx, hid, ih]
        · have hxid : ¬ (x.id = id) := by rw [hx]; exact fun he => hid he.symm
          have hid' : ¬ (t.id = id) := fun he => hid he.symm
          simp [List.find?, hx, hid, hid', hxid, ih]
      · by_cases hxid : x.id = id
        · have hid : ¬ (id = t.id) := by
            intro he
            exact hx (hxid.trans he)
          simp [List.find?, hx, hxid, hid]
        · simp [List.find?, hx, hxid, ih]

/-- `findTask` after `saveTask`. -/
theorem findTask_saveTask (st : SchedState) (t : FetchTask) (id : Nat) :
    findTask (saveTask st t) id =
      if id = t.id then (findTask st id).map (fun _ => t) else findTask st id := by
  unfold findTask saveTask
  exact find?_map_replace_id st.tasks t t.id id rfl

/-- Same replacement lemma for job rows. -/
theorem find?_map_replace_job_id (l : List Job) (j : Job) (k id : Nat)
    (hk : j.job_id = k) :
    (l.map (fun x => if x.job_id = k then j else x)).find? (fun x => x.job_id = id) =
      if id = k then (l.find? (fun x => x.job_id = id)).map (fun _ => j)
      else l.find? (fun x => x.job_id = id) := by
  subst hk
  induction l with
  | nil => simp
  | cons x xs ih =>
      by_cases hx : x.job_id = j.job_id
      · by_cases hid : id = j.job_id
        · simp [List.find?, hx, hid, ih]
        · have hxid : ¬ (x.job_id = id) := by rw [hx]; exact fun he => hid he.symm
          have hid' : ¬ (j.job_id = id) := fun he => hid he.symm
          simp [List.find?, hx, hid, hid', hxid, ih]
      · by_cases hxid : x.job_id = id
        · have hid : ¬ (id = j.job_id) := by
            intro he
            exact hx (hxid.trans he)
          simp [List.find?, hx, hxid, hid]
        · simp [List.find?, hx, hxid, ih]

/-- `findJob` after `saveJob`. -/
theorem findJob_saveJob (st : SchedState) (j : Job) (id : Nat) :
    findJob (saveJob st j) id =
      if id = j.job_id then (findJob st id).map (fun _ => j) else findJob st id := by
  unfold findJob saveJob
  exact find?_map_replace_job_id st.jobs j j.job_id id rfl

/-- `findTask` ignores the job, broker and counter components. -/
theorem findTask_mk (tasks : List FetchTask) (jobs : List Job)
    (broker : List BrokerEntry) (nt nj : Nat) (id : Nat) :
    findTask ⟨tasks, jobs, broker, nt, nj⟩ id = tasks.find? (fun t => t.id = id) := rfl

/-- `findJob` ignores the task, broker and counter components. -/
theorem findJob_mk (tasks : List FetchTask) (jobs : List Job)
    (broker : List BrokerEntry) (nt nj : Nat) (id : Nat) :
    findJob ⟨tasks, jobs, broker, nt, nj⟩ id = jobs.find? (fun j => j.job_id = id) := rfl


/-- `saveJob` leaves the task rows alone. -/
theorem tasks_saveJob (st : SchedState) (j : Job) : (saveJob st j).tasks = st.tasks := rfl

/-- `saveTask` leaves the job rows alone. -/
theorem jobs_saveTask (st : SchedState) (t : FetchTask) : (saveTask st t).jobs = st.jobs := rfl

/-- A job lookup is unaffected by `saveTask`. -/
theorem findJob_saveTask (st : SchedState) (t : FetchTask) (id : Nat) :
    findJob (saveTask st t) id = findJob st id := rfl

/-- C7: for a recurring task (interval > 0) whose job succeeds, the default
success callback marks the job COMPLETED with the run's result dict and the
broker-meta logs persisted, increments the task's execution counter by one,
creates exactly one new ENQUEUED job (appended last, with the next fresh job
id) scheduled at `now + task.interval`, and leaves the task status ENQUEUED. -/
theorem C7_success_reenqueues (env : Env) (st : SchedState) (jid now : Nat)
    (res : RunResult) (log : Value) (j : Job) (t : FetchTask)
    (hj : findJob st jid = some j)
    (ht : findTask st j.task_id = some t)
    (hint : t.interval > 0) :
    (on_success_callback env st jid now res log true).snd = Except.ok () ∧
    taskStatus? (on_success_callback env st jid now res log true).fst t.id
      = some TaskStatus.enqueued ∧
    taskExecutions? (on_success_callback env st jid now res log true).fst t.id
      = some (t.executions + 1) ∧
    jobStatus? (on_success_callback env st jid now res log true).fst jid
      = some JobStatus.completed ∧
    jobResult? (on_success_callback env st jid now res log true).fst jid
      = some (some res.dict) ∧
    jobLogs? (on_success_callback env st jid now res log true).fst jid
      = some (some log) ∧
    (on_success_callback env st jid now res log true).fst.jobs.length
      = st.jobs.length + 1 ∧
    (∃ nj, (on_success_callback env st jid now res log true).fst.jobs.getLast? = some nj ∧
      nj.status = JobStatus.enqueued ∧ nj.task_id = t.id ∧
      nj.scheduled_datetime = some (now + t.interval) ∧ nj.job_id = st.next_job_id) := by
  have hid : t.id = j.task_id := by
    have := List.find?_some ht
    simpa using this
  have hjid : j.job_id = jid := by
    have := List.find?_some hj
    simpa using this
  have hft : findTask st t.id = some t := by rw [hid]; exact ht
  simp only [on_success_callback, hj, ht]
  simp only [enqueue_task, if_pos hint, if_true]
  refine ⟨trivial, ?_, ?_, ?_, ?_, ?_, ?_, ?_⟩
  · simp only [taskStatus?, findTask_saveTask]
    rw [if_pos trivial]
    simp only [findTask] at hft ⊢
    simp only [tasks_saveJob, saveTask]
    rw [find?_map_replace_id]
    case hk => rfl
    rw [if_pos rfl]
    rw [hft]
    rfl
  · simp only [taskExecutions?, findTask_saveTask]
    rw [if_pos trivial]
    simp only [findTask] at hft ⊢
    simp only [tasks_saveJob, saveTask]
    rw [find?_map_replace_id]
    case hk => rfl
    rw [if_pos rfl]
    rw [hft]
    rfl
  · simp only [jobStatus?, findJob_saveTask]
    simp only [findJob] at hj ⊢
    simp only [saveJob, jobs_saveTask]
    rw [find?_append_or]
    rw [find?_map_replace_job_id]
    case hk => rfl
    rw [if_pos hjid.symm]
    rw [hj]
    rfl
  · simp only [jobResult?, findJob_saveTask]
    simp only [findJob] at hj ⊢
    simp only [saveJob, jobs_saveTask]
    rw [find?_append_or]
    rw [find?_map_replace_job_id]
    case hk => rfl
    rw [if_pos hjid.symm]
    rw [hj]
    rfl
  · simp only [jobLogs?, findJob_saveTask]
    simp only [findJob] at hj ⊢
    simp only [saveJob, jobs_saveTask]
    rw [find?_append_or]
    rw [find?_map_replace_job_id]
    case hk => rfl
    rw [if_pos hjid.symm]
    rw [hj]
    rfl
  · simp only [jobs_saveTask, saveJob]
    simp [List.length_append, List.length_map]
  · simp only [jobs_saveTask]
    refine ⟨_, List.getLast?_concat _, rfl, rfl, rfl, rfl⟩

/-- Witness for C7 at a concrete state: `task0` (interval 360) with job 11. -/
theorem C7_witness :
    (on_success_callback env0 st0 11 1000 result0 (Value.list []) true).snd = Except.ok () ∧
    taskStatus? (on_success_callback env0 st0 11 1000 result0 (Value.list []) true).fst task0.id
      = some TaskStatus.enqueued ∧
    taskExecutions? (on_success_callback env0 st0 11 1000 result0 (Value.list []) true).fst task0.id
      = some (task0.executions + 1) ∧
    jobStatus? (on_success_callback env0 st0 11 1000 result0 (Value.list []) true).fst 11
      = some JobStatus.completed ∧
    jobResult? (on_success_callback env0 st0 11 1000 result0 (Value.list []) true).fst 11
      = some (some result0.dict) ∧
    jobLogs? (on_success_callback env0 st0 11 1000 result0 (Value.list []) true).fst 11
      = some (some (Value.list [])) ∧
    (on_success_callback env0 st0 11 1000 result0 (Value.list []) true).fst.jobs.length
      = st0.jobs.length + 1 ∧
    (∃ nj, (on_success_callback env0 st0 11 1000 result0 (Value.list []) true).fst.jobs.getLast? = some nj ∧
      nj.status = JobStatus.enqueued ∧ nj.task_id = task0.id ∧
      nj.scheduled_datetime = some (1000 + task0.interval) ∧ nj.job_id = st0.next_job_id) :=
  C7_success_reenqueues env0 st0 11 1000 result0 (Value.list []) job11 task0
    (by rfl) (by rfl) (by decide)

/-- C1 counterexample: `task0` has `max_retries = 5` and a resumable
backend; on its third failure (`num_failures` becomes 3 < 5) the claim says
the callback must set RECOVERY and enqueue a replacement, yet the code
compares against the global `PERCEVAL_JOB_MAX_RETRIES = 3` and terminates
the task: status FAILED, no new job. -/
theorem C1_counterexample :
    (2 + 1 : Nat) < 5 ∧
    env0.has_resuming "git" = some true ∧
    taskStatus? (on_failure_callback env0 c1_state 11 1000 Option.none Option.none true).fst 0
      = some TaskStatus.failed ∧
    (on_failure_callback env0 c1_state 11 1000 Option.none Option.none true).fst.jobs.length
      = c1_state.jobs.length := by
  refine ⟨by decide, by decide, by rfl, by rfl⟩

/-- C3 counterexample: `c3_state` has one FAILED job and `num_failures = 1`;
a successful run of job 11 resets the counter to 0 while the FAILED job
count stays 1 — the counter neither equals the FAILED-job count nor is it
monotone. -/
theorem C3_counterexample :
    taskFailures? c3_state 0 = some 1 ∧
    taskFailures? (on_success_callback env0 c3_state 11 1000 result0 (Value.list []) true).fst 0
      = some 0 ∧
    failed_job_count (on_success_callback env0 c3_state 11 1000 result0 (Value.list []) true).fst 0
      = 1 := by
  decide

/-- C4 counterexample: after `schedule_task` and `remove_task`, the task row
is gone (there is no CANCELED status in the model's enums and the task is
deleted rather than kept), while the broker still holds the live entry of
the ENQUEUED job — contradicting both "task has status CANCELED" and "no
live broker entry remains". -/
theorem C4_counterexample :
    (findTask (remove_task (schedule_task env0 c46_state "git" "commit"
        [("uri", Value.str "r")] "perceval_jobs" 360 5 1000 true).fst 0).fst 0 = Option.none) ∧
    (remove_task (schedule_task env0 c46_state "git" "commit"
        [("uri", Value.str "r")] "perceval_jobs" 360 5 1000 true).fst 0).fst.broker.length = 1 := by
  refine ⟨by rfl, by rfl⟩

/-- C5 counterexample: rescheduling a COMPLETED task is a no-op that returns
`False` — no fresh job is enqueued and the task does not return to
ENQUEUED. -/
theorem C5_counterexample :
    reschedule_task env0 c5_state 0 1000 true = (c5_state, Except.ok false) := by
  rfl

/-- C6 counterexample: when the broker `enqueue_at` call fails, the error
propagates but the just-created Job row stays persisted with status
ENQUEUED (not FAILED) and the task row is untouched (still ENQUEUED, not
FAILED). -/
theorem C6_counterexample :
    (enqueue_task env0 c1_state task0 1000 Option.none Option.none false).snd
        = Except.error SchedError.brokerError ∧
    jobStatus? (enqueue_task env0 c1_state task0 1000 Option.none Option.none false).fst 12
        = some JobStatus.enqueued ∧
    taskStatus? (enqueue_task env0 c1_state task0 1000 Option.none Option.none false).fst 0
        = some TaskStatus.enqueued := by
  refine ⟨by rfl, by rfl, by rfl⟩

/-- Every pending entry surviving the `xautoclaim` loop was already pending
and had not yet reached the idle threshold: every sufficiently idle entry is
claimed and acknowledged by the recovery pass, whatever the sink later does
with it. -/
theorem recoverLoop_pending (entries : List StreamEntry) (pending : List PendingEntry) :
    ∀ p ∈ (_recoverLoop entries pending).fst, p ∈ pending ∧ p.idle_ms < recoverIdleMs := by
  induction pending using _recoverLoop.induct entries with
  | case1 pnd idle h =>
      intro p hp
      rw [_recoverLoop] at hp
      simp only [dif_pos h] at hp
      have hmem := List.mem_filter.mp hp
      refine ⟨hmem.1, ?_⟩
      by_contra hge
      push_neg at hge
      have hpidle : p ∈ List.filter (fun p => decide (p.idle_ms ≥ recoverIdleMs)) pnd := by
        exact List.mem_filter.mpr ⟨hmem.1, by simpa using hge⟩
      have hclaimed : p ∈ List.take 10 (List.filter (fun p => decide (p.idle_ms ≥ recoverIdleMs)) pnd) := by
        rw [List.take_of_length_le h]
        exact hpidle
      have := hmem.2
      simp only [Bool.not_eq_true', List.any_eq_false] at this
      have hfalse := this p hclaimed
      simp at hfalse
  | case2 pnd idle claimed pending' h ih =>
      intro p hp
      rw [_recoverLoop] at hp
      simp only [dif_neg h] at hp
      have := ih p hp
      have hsub : p ∈ pnd := List.mem_of_mem_filter this.1
      exact ⟨hsub, this.2⟩

/-- Every pending entry surviving the `xreadgroup` loop was pending before
the loop started: each newly delivered entry is acknowledged right after it
is yielded, so none of them stays pending, whatever the sink reports. -/
theorem consumeLoop_pending (entries : List StreamEntry) (cname : String)
    (delivered : Nat) (pending : List PendingEntry) (limit total : Nat) :
    ∀ p ∈ (_consumeLoop entries cname delivered pending limit total).snd.fst, p ∈ pending := by
  induction delivered, pending, limit, total using _consumeLoop.induct entries cname with
  | case1 d pnd lim tot batch h =>
      intro p hp
      rw [_consumeLoop] at hp
      simp only [dif_pos h] at hp
      exact hp
  | case2 d pnd lim tot batch h1 tot' h2 =>
      intro p hp
      rw [_consumeLoop] at hp
      simp only [dif_neg h1, if_pos h2] at hp
      have hm := List.mem_filter.mp hp
      cases List.mem_append.mp hm.1 with
      | inl hin => exact hin
      | inr hnew =>
          exfalso
          obtain ⟨e, he, hpe⟩ := List.mem_map.mp hnew
          have hall := hm.2
          simp only [Bool.not_eq_true', List.any_eq_false] at hall
          have hfe := hall e he
          rw [← hpe] at hfe
          simp at hfe
  | case3 d pnd lim tot batch h1 d' p1 p2 tot' h2 ih =>
      intro p hp
      rw [_consumeLoop] at hp
      simp only [dif_neg h1, if_neg h2] at hp
      have hmem := ih p hp
      have h2' := List.mem_filter.mp hmem
      cases List.mem_append.mp h2'.1 with
      | inl hin => exact hin
      | inr hnew =>
          exfalso
          obtain ⟨e, he, hpe⟩ := List.mem_map.mp hnew
          have hall := h2'.2
          simp only [Bool.not_eq_true', List.any_eq_false] at hall
          have hfe := hall e he
          rw [← hpe] at hfe
          simp at hfe

/-- Replacing the group with matching key in a group list. -/
theorem find?_map_replace_group (l : List ConsumerGroup) (g : ConsumerGroup)
    (gs gn s n : String) (hgs : g.stream = gs) (hgn : g.name = gn) :
    (l.map (fun x => if x.stream = gs ∧ x.name = gn then g else x)).find?
        (fun x => x.stream = s ∧ x.name = n) =
      if s = gs ∧ n = gn then
        (l.find? (fun x => x.stream = s ∧ x.name = n)).map (fun _ => g)
      else l.find? (fun x => x.stream = s ∧ x.name = n) := by
  subst hgs hgn
  induction l with
  | nil => simp
  | cons x xs ih =>
      rw [List.map_cons]
      by_cases hx : x.stream = g.stream ∧ x.name = g.name
      · rw [if_pos hx]
        by_cases hsn : s = g.stream ∧ n = g.name
        · rw [List.find?_cons_of_pos _ (by simp [hsn.1, hsn.2])]
          rw [if_pos hsn]
          rw [List.find?_cons_of_pos _ (by simp [hx.1, hx.2, hsn.1, hsn.2])]
          rfl
        · have hgp : ¬ (g.stream = s ∧ g.name = n) := fun hc => hsn ⟨hc.1.symm, hc.2.symm⟩
          have hxp : ¬ (x.stream = s ∧ x.name = n) := fun hc => hsn ⟨hc.1 ▸ hx.1, hc.2 ▸ hx.2⟩
          rw [List.find?_cons_of_neg _ (by simpa using hgp)]
          rw [ih]
          rw [if_neg hsn, if_neg hsn]
          rw [List.find?_cons_of_neg _ (by simpa using hxp)]
      · rw [if_neg hx]
        by_cases hxsn : x.stream = s ∧ x.name = n
        · have hnsn : ¬ (s = g.stream ∧ n = g.name) := fun hc =>
            hx ⟨hxsn.1.trans hc.1, hxsn.2.trans hc.2⟩
          rw [List.find?_cons_of_pos _ (by simp [hxsn.1, hxsn.2])]
          rw [if_neg hnsn]
          rw [List.find?_cons_of_pos _ (by simp [hxsn.1, hxsn.2])]
        · rw [List.find?_cons_of_neg _ (by simpa using hxsn)]
          rw [List.find?_cons_of_neg _ (by simpa using hxsn)]
          exact ih

/-- `findGroup` after `saveGroup`. -/
theorem findGroup_saveGroup (st : RedisState) (g : ConsumerGroup) (s n : String) :
    findGroup (saveGroup st g) s n =
      if s = g.stream ∧ n = g.name then (findGroup st s n).map (fun _ => g)
      else findGroup st s n := by
  unfold findGroup saveGroup
  exact find?_map_replace_group st.groups g g.stream g.name s n rfl rfl

/-- The Redis state left by `archivist_job` is the consumer's state: the
sink result feeds only the stored-items count. -/
theorem archivist_job_state (st : RedisState) (cname s n : String) (limit : Nat)
    (bulk_ok : Dict → Bool) (fault : Bool) :
    (archivist_job st cname s n limit bulk_ok fault).fst
      = (events_consumer st cname s n limit fault).fst := by
  unfold archivist_job
  rcases h : events_consumer st cname s n limit fault with ⟨st', r⟩
  cases r <;> simp

/-- C2 counterexample: one stream entry, a sink that rejects everything.
The run stores nothing (`ok 0`) yet the entry was delivered (`delivered =
1`) and is no longer pending (`pending = []`) — the rejected entry was
acknowledged to the group and will never be re-delivered, contradicting
"only stored entries are acknowledged; rejected entries remain pending". -/
theorem C2_counterexample :
    (archivist_job redis1 "c1" "events" "g" 100 (fun _ => false) false).snd = Except.ok 0 ∧
    (findGroup (archivist_job redis1 "c1" "events" "g" 100 (fun _ => false) false).fst
        "events" "g").map ConsumerGroup.pending = some [] ∧
    (findGroup (archivist_job redis1 "c1" "events" "g" 100 (fun _ => false) false).fst
        "events" "g").map ConsumerGroup.delivered = some 1 := by
  refine ⟨?_, ?_, ?_⟩ <;>
    simp [archivist_job, events_consumer, _create_consumer_group, xgroup_create,
      _recover_stream_entries, findGroup, findStream, saveGroup,
      _recoverLoop, _consumeLoop, OpenSearchStorage_store, storeLoop, _bulk,
      redis1, recoverIdleMs]

/-- C2 as amended: the Redis effects of a consumer run do not depend on the
sink's per-entry outcomes at all — the final state is identical for any two
outcome oracles — and after a run every entry still pending for the group
was pending before the run and below the recovery idle threshold: every
entry the run delivered (new or reclaimed) has been acknowledged, stored or
not. -/
theorem C2_acks_independent_of_sink (st : RedisState) (cname s n : String)
    (limit : Nat) (bulk1 bulk2 : Dict → Bool) (g : ConsumerGroup)
    (hg : findGroup st s n = some g) :
    (archivist_job st cname s n limit bulk1 false).fst
      = (archivist_job st cname s n limit bulk2 false).fst ∧
    (∃ g', findGroup (archivist_job st cname s n limit bulk1 false).fst s n = some g' ∧
      ∀ p ∈ g'.pending, p ∈ g.pending ∧ p.idle_ms < recoverIdleMs) := by
  constructor
  · rw [archivist_job_state, archivist_job_state]
  · have hsg : g.stream = s ∧ g.name = n := by
      unfold findGroup at hg
      have := List.find?_some hg
      simpa using this
    rw [archivist_job_state]
    simp only [events_consumer, _create_consumer_group, xgroup_create, hg]
    simp only [Bool.false_eq_true, if_false]
    simp only [_recover_stream_entries, hg]
    rw [findGroup_saveGroup]
    dsimp only
    rw [if_pos (show s = g.stream ∧ n = g.name from ⟨hsg.1.symm, hsg.2.symm⟩)]
    rw [hg]
    simp only [Option.map_some']
    rw [findGroup_saveGroup]
    dsimp only
    rw [if_pos (show s = g.stream ∧ n = g.name from ⟨hsg.1.symm, hsg.2.symm⟩)]
    rw [findGroup_saveGroup]
    dsimp only
    rw [if_pos (show s = g.stream ∧ n = g.name from ⟨hsg.1.symm, hsg.2.symm⟩)]
    rw [hg]
    simp only [Option.map_some']
    refine ⟨_, rfl, ?_⟩
    intro p hp
    dsimp only at hp
    have h1 := consumeLoop_pending _ _ _ _ _ _ p hp
    have h2 := recoverLoop_pending (findStream st s) g.pending p h1
    exact h2

/-- Witness for C2 at a concrete state: one entry, an accepting and a
rejecting sink. -/
theorem C2_witness :
    (archivist_job redis1 "c1" "events" "g" 100 (fun _ => true) false).fst
      = (archivist_job redis1 "c1" "events" "g" 100 (fun _ => false) false).fst ∧
    (∃ g', findGroup (archivist_job redis1 "c1" "events" "g" 100 (fun _ => true) false).fst
        "events" "g" = some g' ∧
      ∀ p ∈ g'.pending,
        p ∈ ({ stream := "events", name := "g", delivered := 0,
               pending := [] } : ConsumerGroup).pending ∧ p.idle_ms < recoverIdleMs) :=
  C2_acks_independent_of_sink redis1 "c1" "events" "g" 100 (fun _ => true) (fun _ => false)
    { stream := "events", name := "g", delivered := 0, pending := [] } (by rfl)

/-- The conditional stream creation of `mkstream=True` never touches the
group list. -/
theorem groups_st1 (st : RedisState) (s : String) :
    ((if (st.streams.find? (fun p => p.fst = s)).isSome then st
      else { st with streams := st.streams ++ [(s, [])] }) : RedisState).groups = st.groups := by
  split <;> rfl

/-- C9: `_create_consumer_group` creates the group at stream position 0
when it is absent (BUSYGROUP is swallowed as success, any other error
propagates), an existing group makes the call a no-op success, and calling
it twice equals calling it once. -/
theorem C9_create_consumer_group (st : RedisState) (s n : String) :
    (findGroup st s n = Option.none →
      (_create_consumer_group st s n false).snd = Except.ok () ∧
      findGroup (_create_consumer_group st s n false).fst s n
        = some { stream := s, name := n, delivered := 0, pending := [] }) ∧
    (∀ g, findGroup st s n = some g →
      _create_consumer_group st s n false = (st, Except.ok ())) ∧
    (_create_consumer_group st s n true = (st, Except.error RedisError.other)) ∧
    (_create_consumer_group (_create_consumer_group st s n false).fst s n false
      = ((_create_consumer_group st s n false).fst, Except.ok ())) := by
  refine ⟨?_, ?_, ?_, ?_⟩
  · intro hg
    simp only [_create_consumer_group, xgroup_create, hg, Bool.false_eq_true, if_false]
    constructor
    · trivial
    · unfold findGroup at hg ⊢
      dsimp only
      rw [groups_st1]
      rw [find?_append_or]
      rw [hg]
      simp [Option.or]
  · intro g hg
    simp only [_create_consumer_group, xgroup_create, hg, Bool.false_eq_true, if_false]
  · simp only [_create_consumer_group, xgroup_create]
    rfl
  · cases hg : findGroup st s n with
    | some g =>
        simp only [_create_consumer_group, xgroup_create, hg, Bool.false_eq_true, if_false]
    | none =>
        have hg2 : findGroup (_create_consumer_group st s n false).fst s n
            = some { stream := s, name := n, delivered := 0, pending := [] } := by
          simp only [_create_consumer_group, xgroup_create, hg, Bool.false_eq_true, if_false]
          unfold findGroup at hg ⊢
          dsimp only
          rw [groups_st1]
          rw [find?_append_or]
          rw [hg]
          simp [Option.or]
        generalize hst1 : (_create_consumer_group st s n false).fst = st1 at hg2 ⊢
        simp only [_create_consumer_group, xgroup_create, hg2, Bool.false_eq_true, if_false]

/-- Witness for C9 on the empty Redis state. -/
theorem C9_witness :
    (_create_consumer_group redis0 "events" "g" false).snd = Except.ok () ∧
    findGroup (_create_consumer_group redis0 "events" "g" false).fst "events" "g"
      = some { stream := "events", name := "g", delivered := 0, pending := [] } :=
  (C9_create_consumer_group redis0 "events" "g").1 (by rfl)

/-- A task lookup is unaffected by `saveJob`. -/
theorem findTask_saveJob (st : SchedState) (j : Job) (id : Nat) :
    findTask (saveJob st j) id = findTask st id := rfl

/-- C1 as amended: the failure callback terminates the task (status FAILED,
no job added) exactly when the perceval backend cannot resume or the
incremented failure count reaches the global
`settings.PERCEVAL_JOB_MAX_RETRIES`; otherwise the task moves to RECOVERY
and exactly one replacement job is enqueued, scheduled at
`now + settings.PERCEVAL_JOB_RETRY_INTERVAL`.  The task's own `max_retries`
column and its `interval` play no role in this decision. -/
theorem C1_on_failure_retry_policy (env : Env) (st : SchedState) (jid now : Nat)
    (mres : Option RunResult) (mlog : Option Value) (j : Job) (t : FetchTask)
    (hj : findJob st jid = some j)
    (ht : findTask st j.task_id = some t) :
    ((env.has_resuming t.backend ≠ some true ∨
        t.num_failures + 1 ≥ env.settings.perceval_job_max_retries) →
      taskStatus? (on_failure_callback env st jid now mres mlog true).fst t.id
        = some TaskStatus.failed ∧
      (on_failure_callback env st jid now mres mlog true).fst.jobs.length
        = st.jobs.length) ∧
    ((env.has_resuming t.backend = some true ∧
        t.num_failures + 1 < env.settings.perceval_job_max_retries) →
      taskStatus? (on_failure_callback env st jid now mres mlog true).fst t.id
        = some TaskStatus.recovery ∧
      (on_failure_callback env st jid now mres mlog true).fst.jobs.length
        = st.jobs.length + 1 ∧
      (∃ nj, (on_failure_callback env st jid now mres mlog true).fst.jobs.getLast? = some nj ∧
        nj.status = JobStatus.enqueued ∧ nj.task_id = t.id ∧
        nj.scheduled_datetime = some (now + env.settings.perceval_job_retry_interval))) := by
  have hid : t.id = j.task_id := by
    have := List.find?_some ht
    simpa using this
  have hft : findTask st t.id = some t := by rw [hid]; exact ht
  simp only [on_failure_callback, hj, ht]
  constructor
  · intro hcase
    cases hr : env.has_resuming t.backend with
    | none =>
        dsimp only
        constructor
        · simp only [taskStatus?, findTask_saveJob, findTask_saveTask]
          rw [if_pos trivial]
          rw [hft]
          rfl
        · simp only [saveJob, jobs_saveTask]
          simp [List.length_map]
    | some b =>
        cases b with
        | false =>
            dsimp only
            constructor
            · simp only [taskStatus?, findTask_saveJob, findTask_saveTask]
              rw [if_pos trivial]
              rw [hft]
              rfl
            · simp only [saveJob, jobs_saveTask]
              simp [List.length_map]
        | true =>
            dsimp only
            have hge : t.num_failures + 1 ≥ env.settings.perceval_job_max_retries := by
              cases hcase with
              | inl h => exact absurd hr h
              | inr h => exact h
            rw [if_pos hge]
            constructor
            · simp only [taskStatus?, findTask_saveJob, findTask_saveTask]
              rw [if_pos trivial]
              rw [hft]
              rfl
            · simp only [saveJob, jobs_saveTask]
              simp [List.length_map]
  · rintro ⟨hres, hlt⟩
    rw [hres]
    rw [if_neg (by omega)]
    simp only [enqueue_task, if_true]
    refine ⟨?_, ?_, ?_⟩
    · simp only [taskStatus?, findTask_saveTask]
      rw [if_pos trivial]
      simp only [findTask] at hft ⊢
      simp only [tasks_saveJob, saveTask]
      rw [find?_map_replace_id]
      case hk => rfl
      rw [if_pos rfl]
      rw [hft]
      rfl
    · simp only [jobs_saveTask, saveJob]
      simp [List.length_append, List.length_map]
    · simp only [jobs_saveTask]
      refine ⟨_, List.getLast?_concat _, rfl, rfl, rfl⟩

/-- Witness for C1 at a concrete state: first failure of `task0` (counter
becomes 1 < 3, `git` resumes), so the retry branch fires. -/
theorem C1_witness :
    taskStatus? (on_failure_callback env0 st0 11 1000 Option.none Option.none true).fst task0.id
      = some TaskStatus.recovery ∧
    (on_failure_callback env0 st0 11 1000 Option.none Option.none true).fst.jobs.length
      = st0.jobs.length + 1 ∧
    (∃ nj, (on_failure_callback env0 st0 11 1000 Option.none Option.none true).fst.jobs.getLast? = some nj ∧
      nj.status = JobStatus.enqueued ∧ nj.task_id = task0.id ∧
      nj.scheduled_datetime = some (1000 + env0.settings.perceval_job_retry_interval)) :=
  (C1_on_failure_retry_policy env0 st0 11 1000 Option.none Option.none job11 task0
    (by rfl) (by rfl)).2 ⟨by rfl, by decide⟩

/-- C3 as amended: the task's failure counter counts failures since the
last successful run — the failure callback sets it to the previous value
plus one, and the success callback resets it to zero (whether or not the
broker re-enqueue succeeds).  It is therefore neither equal to the number
of FAILED jobs in general nor monotone. -/
theorem C3_failure_counter_semantics (env : Env) (st : SchedState) (jid now : Nat)
    (mres : Option RunResult) (mlog : Option Value) (res : RunResult) (log : Value)
    (bk : Bool) (j : Job) (t : FetchTask)
    (hj : findJob st jid = some j)
    (ht : findTask st j.task_id = some t) :
    taskFailures? (on_failure_callback env st jid now mres mlog bk).fst t.id
      = some (t.num_failures + 1) ∧
    taskFailures? (on_success_callback env st jid now res log bk).fst t.id
      = some 0 := by
  have hid : t.id = j.task_id := by
    have := List.find?_some ht
    simpa using this
  have hft : findTask st t.id = some t := by rw [hid]; exact ht
  constructor
  · simp only [on_failure_callback, hj, ht]
    cases hr : env.has_resuming t.backend with
    | none =>
        dsimp only
        simp only [taskFailures?, findTask_saveJob, findTask_saveTask]
        rw [if_pos trivial, hft]
        rfl
    | some b =>
        cases b with
        | false =>
            dsimp only
            simp only [taskFailures?, findTask_saveJob, findTask_saveTask]
            rw [if_pos trivial, hft]
            rfl
        | true =>
            dsimp only
            by_cases hge : t.num_failures + 1 ≥ env.settings.perceval_job_max_retries
            · rw [if_pos hge]
              simp only [taskFailures?, findTask_saveJob, findTask_saveTask]
              rw [if_pos trivial, hft]
              rfl
            · rw [if_neg hge]
              cases bk with
              | true =>
                  simp only [enqueue_task, if_true]
                  simp only [taskFailures?, findTask_saveTask]
                  rw [if_pos trivial]
                  simp only [findTask] at hft ⊢
                  simp only [tasks_saveJob, saveTask]
                  rw [find?_map_replace_id]
                  on_goal 2 => rfl
                  rw [if_pos rfl, hft]
                  rfl
              | false =>
                  simp only [enqueue_task, Bool.false_eq_true, if_false]
                  simp only [taskFailures?]
                  simp only [findTask] at hft ⊢
                  simp only [tasks_saveJob, saveTask]
                  rw [find?_map_replace_id]
                  on_goal 2 => rfl
                  rw [if_pos rfl, hft]
                  rfl
  · simp only [on_success_callback, hj, ht]
    by_cases hic : t.interval > 0
    · rw [if_pos hic]
      cases bk with
      | true =>
          simp only [enqueue_task, if_true]
          simp only [taskFailures?, findTask_saveTask]
          rw [if_pos trivial]
          simp only [findTask] at hft ⊢
          simp only [tasks_saveJob, saveTask]
          rw [find?_map_replace_id]
          on_goal 2 => rfl
          rw [if_pos rfl, hft]
          rfl
      | false =>
          simp only [enqueue_task, Bool.false_eq_true, if_false]
          simp only [taskFailures?]
          simp only [findTask] at hft ⊢
          simp only [tasks_saveJob, saveTask]
          rw [find?_map_replace_id]
          on_goal 2 => rfl
          rw [if_pos rfl, hft]
          rfl
    · rw [if_neg hic]
      simp only [taskFailures?, findTask_saveJob, findTask_saveTask]
      rw [if_pos trivial, hft]
      rfl

/-- Witness for C3 at a concrete state. -/
theorem C3_witness :
    taskFailures? (on_failure_callback env0 st0 11 1000 Option.none Option.none true).fst task0.id
      = some (task0.num_failures + 1) ∧
    taskFailures? (on_success_callback env0 st0 11 1000 result0 (Value.list []) true).fst task0.id
      = some 0 :=
  C3_failure_counter_semantics env0 st0 11 1000 Option.none Option.none result0 (Value.list [])
    true job11 task0 (by rfl) (by rfl)

/-- C4 as amended: on an existing task, `remove_task` deletes the Task row
and, by cascade, all of its Job rows — nothing is marked CANCELED (neither
status enum has such a member) and no broker entry is cancelled; when some
job of the task is RUNNING the code errors out (reading `job_id` on a
QuerySet) before touching anything. -/
theorem C4_remove_task_semantics (st : SchedState) (id : Nat) (t : FetchTask)
    (ht : findTask st id = some t) :
    ((st.jobs.filter (fun j => decide (j.task_id = t.id ∧ j.status = JobStatus.running))).isEmpty = true →
      (remove_task st id).snd = Except.ok () ∧
      findTask (remove_task st id).fst id = Option.none ∧
      (∀ j ∈ (remove_task st id).fst.jobs, j.task_id ≠ t.id) ∧
      (remove_task st id).fst.broker = st.broker) ∧
    ((st.jobs.filter (fun j => decide (j.task_id = t.id ∧ j.status = JobStatus.running))).isEmpty = false →
      remove_task st id = (st, Except.error SchedError.attributeError)) := by
  have hid : t.id = id := by
    have := List.find?_some ht
    simpa using this
  constructor
  · intro hempty
    simp only [remove_task, ht, hempty, if_true]
    refine ⟨trivial, ?_, ?_, rfl⟩
    · simp only [findTask, deleteTask]
      rw [List.find?_eq_none]
      intro x hx
      have := (List.mem_filter.mp hx).2
      simp only [decide_eq_true_eq] at this ⊢
      rw [← hid]
      exact this
    · intro j hj
      simp only [deleteTask] at hj
      have := (List.mem_filter.mp hj).2
      simpa using this
  · intro hne
    simp only [remove_task, ht, hne]
    rfl

/-- C5 as amended: `reschedule_task` acts only on a FAILED task — resetting
`age`, `executions` and `num_failures` to zero, setting the status to
ENQUEUED and enqueuing exactly one fresh job at the current time; for a
task in any other state (COMPLETED included) it changes nothing and
returns `False`. -/
theorem C5_reschedule_semantics (env : Env) (st : SchedState) (id now : Nat) (t : FetchTask)
    (ht : findTask st id = some t) :
    (t.status ≠ TaskStatus.failed → reschedule_task env st id now true = (st, Except.ok false)) ∧
    (t.status = TaskStatus.failed →
      (reschedule_task env st id now true).snd = Except.ok true ∧
      taskStatus? (reschedule_task env st id now true).fst t.id = some TaskStatus.enqueued ∧
      taskFailures? (reschedule_task env st id now true).fst t.id = some 0 ∧
      taskExecutions? (reschedule_task env st id now true).fst t.id = some 0 ∧
      (reschedule_task env st id now true).fst.jobs.length = st.jobs.length + 1 ∧
      (∃ nj, (reschedule_task env st id now true).fst.jobs.getLast? = some nj ∧
        nj.status = JobStatus.enqueued ∧ nj.task_id = t.id ∧
        nj.scheduled_datetime = some now)) := by
  have hid : t.id = id := by
    have := List.find?_some ht
    simpa using this
  have hft : findTask st t.id = some t := by rw [hid]; exact ht
  constructor
  · intro hns
    simp only [reschedule_task, ht]
    rw [if_neg hns]
  · intro hs
    simp only [reschedule_task, ht]
    rw [if_pos hs]
    simp only [enqueue_task, if_true]
    refine ⟨trivial, ?_, ?_, ?_, ?_, ?_⟩
    · simp only [taskStatus?, findTask_saveTask]
      rw [if_pos trivial]
      simp only [findTask] at hft ⊢
      simp only [tasks_saveJob, saveTask]
      rw [find?_map_replace_id]
      on_goal 2 => rfl
      rw [if_pos rfl, hft]
      rfl
    · simp only [taskFailures?, findTask_saveTask]
      rw [if_pos trivial]
      simp only [findTask] at hft ⊢
      simp only [tasks_saveJob, saveTask]
      rw [find?_map_replace_id]
      on_goal 2 => rfl
      rw [if_pos rfl, hft]
      rfl
    · simp only [taskExecutions?, findTask_saveTask]
      rw [if_pos trivial]
      simp only [findTask] at hft ⊢
      simp only [tasks_saveJob, saveTask]
      rw [find?_map_replace_id]
      on_goal 2 => rfl
      rw [if_pos rfl, hft]
      rfl
    · simp only [jobs_saveTask, saveJob]
      simp [List.length_append, List.length_map]
    · simp only [jobs_saveTask]
      refine ⟨_, List.getLast?_concat _, rfl, rfl, rfl⟩

/-- Witness for C4 on a task with no RUNNING job. -/
theorem C4_witness :
    (remove_task st0 0).snd = Except.ok () ∧
    findTask (remove_task st0 0).fst 0 = Option.none ∧
    (∀ j ∈ (remove_task st0 0).fst.jobs, j.task_id ≠ task0.id) ∧
    (remove_task st0 0).fst.broker = st0.broker :=
  (C4_remove_task_semantics st0 0 task0 (by rfl)).1 (by rfl)

/-- Witness for C5 on a FAILED task. -/
theorem C5_witness :
    (reschedule_task env0 st5f 0 1000 true).snd = Except.ok true ∧
    taskStatus? (reschedule_task env0 st5f 0 1000 true).fst task0.id = some TaskStatus.enqueued ∧
    taskFailures? (reschedule_task env0 st5f 0 1000 true).fst task0.id = some 0 ∧
    taskExecutions? (reschedule_task env0 st5f 0 1000 true).fst task0.id = some 0 ∧
    (reschedule_task env0 st5f 0 1000 true).fst.jobs.length = st5f.jobs.length + 1 ∧
    (∃ nj, (reschedule_task env0 st5f 0 1000 true).fst.jobs.getLast? = some nj ∧
      nj.status = JobStatus.enqueued ∧ nj.task_id = task0.id ∧
      nj.scheduled_datetime = some 1000) :=
  (C5_reschedule_semantics env0 st5f 0 1000 task0f (by rfl)).2 (by rfl)

/-- C6 as amended: when the broker call fails during `enqueue_task`, the
error propagates to the caller; the just-created Job row is persisted with
status ENQUEUED (not FAILED), every task row — status included — is left
exactly as it was (not FAILED), and the broker gained no entry. -/
theorem C6_broker_error_semantics (env : Env) (st : SchedState) (task : FetchTask)
    (now : Nat) (sched : Option Nat) (args : Option Dict) :
    (enqueue_task env st task now sched args false).snd = Except.error SchedError.brokerError ∧
    (∀ id, findTask (enqueue_task env st task now sched args false).fst id = findTask st id) ∧
    (enqueue_task env st task now sched args false).fst.broker = st.broker ∧
    (enqueue_task env st task now sched args false).fst.jobs.length = st.jobs.length + 1 ∧
    (∃ nj, (enqueue_task env st task now sched args false).fst.jobs.getLast? = some nj ∧
      nj.status = JobStatus.enqueued ∧ nj.task_id = task.id) := by
  simp only [enqueue_task, Bool.false_eq_true, if_false]
  refine ⟨trivial, fun id => rfl, trivial, by simp, ⟨_, List.getLast?_concat _, rfl, rfl⟩⟩

/-- C8: `remove_task` and `reschedule_task` raise `NotFoundError` exactly
when no task with the id exists, and in that case the store is left
untouched. -/
theorem C8_notfound_iff_absent (env : Env) (st : SchedState) (id now : Nat) (bk : Bool) :
    ((remove_task st id).snd = Except.error (SchedError.notFound id) ↔ findTask st id = Option.none) ∧
    ((reschedule_task env st id now bk).snd = Except.error (SchedError.notFound id) ↔ findTask st id = Option.none) ∧
    (findTask st id = Option.none →
      (remove_task st id).fst = st ∧ (reschedule_task env st id now bk).fst = st) := by
  cases h : findTask st id with
  | none =>
      refine ⟨?_, ?_, ?_⟩
      · simp [remove_task, h]
      · simp [reschedule_task, h]
      · intro
        exact ⟨by simp [remove_task, h], by simp [reschedule_task, h]⟩
  | some t =>
      refine ⟨?_, ?_, ?_⟩
      · apply iff_of_false
        · simp only [remove_task, h]
          split <;> simp
        · simp
      · apply iff_of_false
        · simp only [reschedule_task, h]
          split
          · simp only [enqueue_task]
            cases bk <;> simp
          · simp
        · simp
      · intro hc
        simp [h] at hc

/-- Witness for C8 on the empty store. -/
theorem C8_witness :
    (remove_task c46_state 7).fst = c46_state ∧
    (reschedule_task env0 c46_state 7 1000 true).fst = c46_state :=
  (C8_notfound_iff_absent env0 c46_state 7 1000 true).2.2 (by rfl)

/-- `d[k] = v` binds `k` to `v`. -/
theorem Dict.get_set_self (d : Dict) (k : String) (v : Value) :
    Dict.get (Dict.set d k v) k = some v := by
  induction d with
  | nil => simp [Dict.set, Dict.get, List.find?]
  | cons p rest ih =>
      by_cases hp : p.fst = k
      · cases p
        simp_all [Dict.set, Dict.get, List.find?]
      · cases p
        simp_all [Dict.set, Dict.get, List.find?]

theorem Dict.get_set_other (d : Dict) (k k' : String) (v : Value) (hk : k' ≠ k) :
    Dict.get (Dict.set d k' v) k = Dict.get d k := by
  induction d with
  | nil => simp [Dict.set, Dict.get, List.find?, hk]
  | cons p rest ih =>
      by_cases hp : p.fst = k'
      · cases p
        simp_all [Dict.set, Dict.get, List.find?]
      · by_cases hfk : p.fst = k
        · cases p
          simp_all [Dict.set, Dict.get, List.find?]
        · cases p
          simp_all [Dict.set, Dict.get, List.find?]

theorem Heap.read_lt_next (h : Heap) (r : Nat) (d : Dict) (hwf : h.WF)
    (hr : h.read r = some d) : r < h.next := by
  unfold Heap.read at hr
  cases hfind : h.cells.find? (fun c => c.fst = r) with
  | none => rw [hfind] at hr; cases hr
  | some c =>
      have hmem := List.mem_of_find?_eq_some hfind
      have hpred := List.find?_some hfind
      have : c.fst = r := by simpa using hpred
      rw [← this]
      exact hwf c hmem

theorem Heap.read_alloc_new (h : Heap) (d : Dict) (hwf : h.WF) :
    (h.alloc d).fst.read h.next = some d := by
  unfold Heap.read Heap.alloc
  rw [find?_append_or]
  have hnone : h.cells.find? (fun c => c.fst = h.next) = Option.none := by
    rw [List.find?_eq_none]
    intro c hc
    have := hwf c hc
    simp only [decide_eq_true_eq]
    omega
  rw [hnone]
  simp [Option.or, List.find?]

theorem Heap.read_alloc_old (h : Heap) (d : Dict) (r : Nat) (hr : r ≠ h.next) :
    (h.alloc d).fst.read r = h.read r := by
  unfold Heap.read Heap.alloc
  rw [find?_append_or]
  cases hfind : h.cells.find? (fun c => c.fst = r) with
  | some c => simp [Option.or]
  | none =>
      simp only [Option.or]
      simp [List.find?, Ne.symm hr]

theorem find?_map_writecell (l : List (Nat × Dict)) (a : Nat) (d : Dict) (r : Nat)
    (hr : r ≠ a) :
    (l.map (fun c => if c.fst = a then (a, d) else c)).find? (fun c => c.fst = r)
      = l.find? (fun c => c.fst = r) := by
  induction l with
  | nil => simp
  | cons c cs ih =>
      rw [List.map_cons]
      by_cases hc : c.fst = a
      · rw [if_pos hc]
        have hcr : ¬ (c.fst = r) := by rw [hc]; exact fun he => hr he.symm
        rw [List.find?_cons_of_neg _ (by simp; exact fun he => hr he.symm)]
        rw [List.find?_cons_of_neg _ (by simpa using hcr)]
        exact ih
      · rw [if_neg hc]
        by_cases hcr : c.fst = r
        · rw [List.find?_cons_of_pos _ (by simpa using hcr),
              List.find?_cons_of_pos _ (by simpa using hcr)]
        · rw [List.find?_cons_of_neg _ (by simpa using hcr),
              List.find?_cons_of_neg _ (by simpa using hcr)]
          exact ih

theorem find?_map_writecell_self (l : List (Nat × Dict)) (a : Nat) (d : Dict) (c0 : Nat × Dict)
    (hs : l.find? (fun c => c.fst = a) = some c0) :
    (l.map (fun c => if c.fst = a then (a, d) else c)).find? (fun c => c.fst = a)
      = some (a, d) := by
  induction l with
  | nil => simp at hs
  | cons c cs ih =>
      rw [List.map_cons]
      by_cases hc : c.fst = a
      · rw [if_pos hc]
        rw [List.find?_cons_of_pos _ (by simp)]
      · rw [if_neg hc]
        rw [List.find?_cons_of_neg _ (by simpa using hc)]
        rw [List.find?_cons_of_neg _ (by simpa using hc)] at hs
        exact ih hs

theorem Heap.read_write_other (h : Heap) (a : Nat) (d : Dict) (r : Nat) (hr : r ≠ a) :
    (h.write a d).read r = h.read r := by
  unfold Heap.read Heap.write
  rw [find?_map_writecell h.cells a d r hr]

theorem Heap.read_write_self (h : Heap) (a : Nat) (d0 d : Dict)
    (hs : h.read a = some d0) :
    (h.write a d).read a = some d := by
  unfold Heap.read Heap.write
  unfold Heap.read at hs
  cases hfind : h.cells.find? (fun c => c.fst = a) with
  | none => rw [hfind] at hs; cases hs
  | some c0 =>
      rw [find?_map_writecell_self h.cells a d c0 hfind]
      rfl

/-- The address returned by an allocation is the old `next`. -/
theorem Heap.alloc_snd (h : Heap) (d : Dict) : (h.alloc d).snd = h.next := rfl

/-- C10: `create_backend_args` never mutates the task's stored
`backend_args`: the base method works on a deep copy placed in a fresh
cell, and the `Git`/`GitLab` refinements mutate only through the job's
copy.  The task's cell is unchanged while the job's dict is extended (with
`gitpath`/`latest_items` for Git, `api_token` as a list and
`sleep_for_rate` for GitLab). -/
theorem C10_backend_args_not_mutated (h : Heap) (tb tc gitbase : String)
    (r : Nat) (d : Dict) (u : String)
    (hwf : h.WF) (hr : h.read r = some d)
    (huri : Dict.get d "uri" = some (Value.str u)) :
    (∃ h' ja, create_backend_args_H h tb tc r = some (h', ja) ∧
      h'.read r = some d ∧ ja.backend_args ≠ r ∧ h'.read ja.backend_args = some d) ∧
    (∃ h' ja, git_create_backend_args_H gitbase h tb tc r = some (h', ja) ∧
      h'.read r = some d ∧ ja.backend_args ≠ r ∧
      (∃ inner, h'.read ja.backend_args = some inner ∧
        Dict.get inner "gitpath" ≠ Option.none ∧
        Dict.get inner "latest_items" = some (Value.bool false))) ∧
    (∃ h' ja, gitlab_create_backend_args_H h tb tc r = some (h', ja) ∧
      h'.read r = some d ∧ ja.backend_args ≠ r ∧
      (∃ inner, h'.read ja.backend_args = some inner ∧
        Dict.get inner "sleep_for_rate" = some (Value.bool true) ∧
        (∃ tv, Dict.get inner "api_token" = some tv ∧ ∃ l, tv = Value.list l))) := by
  have hlt : r < h.next := Heap.read_lt_next h r d hwf hr
  have hne : r ≠ h.next := by omega
  refine ⟨?_, ?_, ?_⟩
  · simp only [create_backend_args_H, hr]
    refine ⟨_, _, rfl, ?_, ?_, ?_⟩
    · rw [Heap.read_alloc_old h d r hne]
      exact hr
    · simp only [Heap.alloc_snd]
      omega
    · simp only [Heap.alloc_snd]
      exact Heap.read_alloc_new h d hwf
  · simp only [git_create_backend_args_H, create_backend_args_H, hr]
    rw [Heap.read_alloc_old h d r hne, hr]
    dsimp only
    rw [huri]
    dsimp only
    simp only [Heap.alloc_snd]
    rw [Heap.read_alloc_new h d hwf]
    dsimp only
    have e1 : (h.alloc d).fst.read h.next = some d := Heap.read_alloc_new h d hwf
    have e2 := Heap.read_write_self (h.alloc d).fst h.next d
      (Dict.set d "latest_items" (Value.bool false)) e1
    have e3 := Heap.read_write_self ((h.alloc d).fst.write h.next (Dict.set d "latest_items" (Value.bool false)))
      h.next (Dict.set d "latest_items" (Value.bool false))
      (Dict.set (Dict.set d "latest_items" (Value.bool false)) "gitpath"
        (Value.str (gitbase ++ "/" ++ lstripSlash u ++ "-git"))) e2
    refine ⟨_, _, rfl, ?_, Ne.symm hne, ?_⟩
    · rw [Heap.read_write_other _ _ _ _ hne, Heap.read_write_other _ _ _ _ hne]
      rw [Heap.read_alloc_old h d r hne]
      exact hr
    · refine ⟨_, e3, ?_, ?_⟩
      · rw [Dict.get_set_self]
        simp
      · rw [Dict.get_set_other _ _ _ _ (by decide)]
        rw [Dict.get_set_self]
  · simp only [gitlab_create_backend_args_H, create_backend_args_H, hr]
    simp only [Heap.alloc_snd]
    rw [Heap.read_alloc_new h d hwf]
    dsimp only
    have e1 : (h.alloc d).fst.read h.next = some d := Heap.read_alloc_new h d hwf
    have e2 := Heap.read_write_self (h.alloc d).fst h.next d
      (Dict.set d "api_token" (match (Dict.get d "api_token").getD Value.none with
        | Value.list l => Value.list l
        | v => Value.list [v])) e1
    have e3 := Heap.read_write_self
      ((h.alloc d).fst.write h.next (Dict.set d "api_token"
        (match (Dict.get d "api_token").getD Value.none with
          | Value.list l => Value.list l
          | v => Value.list [v])))
      h.next
      (Dict.set d "api_token" (match (Dict.get d "api_token").getD Value.none with
        | Value.list l => Value.list l
        | v => Value.list [v]))
      (Dict.set (Dict.set d "api_token" (match (Dict.get d "api_token").getD Value.none with
        | Value.list l => Value.list l
        | v => Value.list [v])) "sleep_for_rate" (Value.bool true)) e2
    refine ⟨_, _, rfl, ?_, Ne.symm hne, ?_⟩
    · rw [Heap.read_write_other _ _ _ _ hne, Heap.read_write_other _ _ _ _ hne]
      rw [Heap.read_alloc_old h d r hne]
      exact hr
    · refine ⟨_, e3, ?_, ?_⟩
      · rw [Dict.get_set_self]
      · rw [Dict.get_set_other _ _ _ _ (by decide)]
        rw [Dict.get_set_self]
        refine ⟨_, rfl, ?_⟩
        cases hv : (Dict.get d "api_token").getD Value.none <;> exact ⟨_, rfl⟩

/-- Witness for C10 on a one-cell heap. -/
theorem C10_witness :
    (∃ h' ja, create_backend_args_H heap0 "git" "commit" 0 = some (h', ja) ∧
      h'.read 0 = some [("uri", Value.str "/r"), ("api_token", Value.str "tkn")] ∧
      ja.backend_args ≠ 0 ∧
      h'.read ja.backend_args = some [("uri", Value.str "/r"), ("api_token", Value.str "tkn")]) ∧
    (∃ h' ja, git_create_backend_args_H "/base" heap0 "git" "commit" 0 = some (h', ja) ∧
      h'.read 0 = some [("uri", Value.str "/r"), ("api_token", Value.str "tkn")] ∧
      ja.backend_args ≠ 0 ∧
      (∃ inner, h'.read ja.backend_args = some inner ∧
        Dict.get inner "gitpath" ≠ Option.none ∧
        Dict.get inner "latest_items" = some (Value.bool false))) ∧
    (∃ h' ja, gitlab_create_backend_args_H heap0 "git" "commit" 0 = some (h', ja) ∧
      h'.read 0 = some [("uri", Value.str "/r"), ("api_token", Value.str "tkn")] ∧
      ja.backend_args ≠ 0 ∧
      (∃ inner, h'.read ja.backend_args = some inner ∧
        Dict.get inner "sleep_for_rate" = some (Value.bool true) ∧
        (∃ tv, Dict.get inner "api_token" = some tv ∧ ∃ l, tv = Value.list l))) :=
  C10_backend_args_not_mutated heap0 "git" "commit" "/base" 0
    [("uri", Value.str "/r"), ("api_token", Value.str "tkn")] "/r"
    (by intro c hc; simp [heap0] at hc; simp [hc, heap0])
    (by rfl) (by rfl)
